import Mathlib

/-!
Shallow embedding of the client of the online-code-editor repository.

The repository is a Next.js front end for a remote code-execution service.
The parts relevant here are:
  * `src/src/utils/api.ts` — the shared fetch wrapper `fetchJSON` (timeout +
    retry), the typed `ApiError`, and the two callers `runCode` (POST /execute)
    and `aiComplete` (POST /ai-complete);
  * `src/src/app/page.tsx` — the page component whose `executeCode` handler
    validates the code and issues the execution request directly;
  * `src/src/components/ConnectionStatus.tsx` (and the variant stored as
    `src/unnamed/part_001`) — the liveness probe of the backend;
  * `src/src/components/editor/CodePane.tsx` — the Monaco pane, mapping the
    selected language to a Monaco mode;
  * `src/unnamed/part_002` — the `Language` union and `ExecutionResult` shape.

Network  effects are modelled by an environment `env : Nat → AttemptOutcome`
giving, for each attempt index of the retry loop, what that attempt of
`fetch` would observe: a resolved HTTP response (with its status, statusText
and parsed body), an abort (the `AbortController` timeout firing), or another
network failure.  The parsed body `data` stands for the value of
`isJson ? JSON.parse(raw) : raw` in `fetchJSON`; a `JSON.parse` failure is
thrown inside the same `try`, is not an `ApiError`, and is therefore retried
and finally rethrown exactly like a network error, so it is covered by the
`networkError` outcome.
-/

namespace OnlineCodeEditor

/-- JSON values, as produced by `JSON.parse` (numbers restricted to integers,
which is all this client ever sends: the only numeric field is a cursor
offset). -/
inductive Json where
  | null : Json
  | bool (b : Bool) : Json
  | num (n : Int) : Json
  | str (s : String) : Json
  | arr (elems : List Json) : Json
  | obj (fields : List (String × Json)) : Json

/-- JS property access `v[k]` on a parsed value: a field of an object, and
`undefined` (here `none`) on anything else — in the client the non-object
cases are a parsed array or the raw response text, neither of which has the
properties looked up below. -/
def jsonGet : Json → String → Option Json
  | Json.obj fields, k => List.lookup k fields
  | _, _ => none

/-- `bodyToMessage` (api.ts): a string body is returned as is; an object body
yields its `error` field if that is a string, else its `message` field if that
is a string; anything else yields `null`.  A parsed array passes the JS
`isRecord` check but has neither property, so it also yields `null`. -/
def bodyToMessage (body : Json) : Option String :=
  match body with
  | Json.str s => some s
  | Json.obj fields =>
      match List.lookup "error" fields with
      | some (Json.str s) => some s
      | _ =>
          match List.lookup "message" fields with
          | some (Json.str s) => some s
          | _ => none
  | _ => none

/-- What one attempt of `fetch` inside `fetchJSON` observes:
  * `response status statusText data` — the promise resolved; `data` is the
    parsed body (`isJson ? JSON.parse(raw) : raw`);
  * `abortError` — the attempt's `AbortController` timeout fired
    (`err.name === "AbortError"`);
  * `networkError msg` — any other rejection (DNS failure, connection reset,
    or a `JSON.parse` throw, all caught by the same `catch`). -/
inductive AttemptOutcome where
  | response (status : Nat) (statusText : String) (data : Json) : AttemptOutcome
  | abortError : AttemptOutcome
  | networkError (msg : String) : AttemptOutcome

/-- `Response.ok` of the Fetch standard: status in the inclusive range
200–299. -/
def resOk (status : Nat) : Bool :=
  200 ≤ status && status ≤ 299

/-- The message `fetchJSON` builds for a non-ok response:
`API ${res.status}: ${bodyToMessage(data) ?? res.statusText}`. -/
def apiErrorMessage (status : Nat) (data : Json) (statusText : String) : String :=
  "API " ++ toString status ++ ": " ++ (bodyToMessage data).getD statusText

/-- How a `fetchJSON` call ends, seen from its caller:
  * `success data` — the parsed body is returned;
  * `apiError status message body` — a thrown `ApiError` (non-ok response);
  * `timedOutError` — a thrown `Error("Request timed out")` (final attempt
    aborted);
  * `thrownError msg` — the final attempt's network error, rethrown. -/
inductive FetchResult where
  | success (data : Json) : FetchResult
  | apiError (status : Nat) (message : String) (body : Json) : FetchResult
  | timedOutError : FetchResult
  | thrownError (msg : String) : FetchResult

/-- What `fetchJSON` does once an attempt's `fetch` has resolved: an ok
status returns the parsed body, a non-ok status throws
`ApiError("API ${status}: ${msg}", status, data)`.  A thrown `ApiError` ends
the loop at once (`if (err instanceof ApiError) throw err`), so a resolved
response is never retried. -/
def responseResult (status : Nat) (statusText : String) (data : Json) :
    FetchResult :=
  if resOk status then FetchResult.success data
  else FetchResult.apiError status (apiErrorMessage status data statusText) data

/-- The retry loop of `fetchJSON` (api.ts, `for (attempt = 0; attempt <=
retries; attempt++)`).  `attempt` is the current attempt index and the second
argument is the number of attempts still allowed after it (`retries -
attempt`, so the source's `attempt < retries` test is "it is nonzero").  A
resolved response ends the loop through `responseResult`.  An abort or
network error retries while attempts remain; on the last attempt an abort
becomes `Error("Request timed out")` and any other error is rethrown. -/
def fetchJSONLoop (env : Nat → AttemptOutcome) : Nat → Nat → FetchResult
  | attempt, 0 =>
      match env attempt with
      | AttemptOutcome.response status statusText data =>
          responseResult status statusText data
      | AttemptOutcome.abortError => FetchResult.timedOutError
      | AttemptOutcome.networkError msg => FetchResult.thrownError msg
  | attempt, r + 1 =>
      match env attempt with
      | AttemptOutcome.response status statusText data =>
          responseResult status statusText data
      | AttemptOutcome.abortError => fetchJSONLoop env (attempt + 1) r
      | AttemptOutcome.networkError _ => fetchJSONLoop env (attempt + 1) r

/-- `fetchJSON` with a given `retries` option: the loop starting at attempt 0
with `retries` further attempts allowed. -/
def fetchJSON (env : Nat → AttemptOutcome) (retries : Nat) : FetchResult :=
  fetchJSONLoop env 0 retries

/-- A request as assembled by `fetchJSON` callers: HTTP method, path under the
API base, the fields of the object passed to `JSON.stringify`, and the
`timeoutMs` / `retries` options. -/
structure Request where
  method : String
  path : String
  bodyFields : List (String × Json)
  timeoutMs : Nat
  retries : Nat

/-- The `Language` union of `src/unnamed/part_002`. -/
inductive Language where
  | python : Language
  | r : Language
  | javascript : Language
  | bash : Language
  | cpp : Language
  | java : Language
  | go : Language
  | julia : Language
  | c : Language
  | csharp : Language
deriving DecidableEq

/-- The string each `Language` member denotes (the union is a union of these
string literals; `JSON.stringify` serializes the value itself). -/
def languageId : Language → String
  | Language.python => "python"
  | Language.r => "r"
  | Language.javascript => "javascript"
  | Language.bash => "bash"
  | Language.cpp => "cpp"
  | Language.java => "java"
  | Language.go => "go"
  | Language.julia => "julia"
  | Language.c => "c"
  | Language.csharp => "csharp"

/-- The `{output, error, success}` result shape (`src/types/editor.ts`). -/
structure ExecutionResult where
  output : String
  error : String
  success : Bool

/-- The request `runCode` (api.ts) hands to `fetchJSON`:
`fetchJSON("/execute", { method: "POST", body: JSON.stringify({ code,
language }), timeoutMs: 20_000, retries: 1 })`. -/
def runCodeRequest (code : String) (language : Language) : Request :=
  { method := "POST"
    path := "/execute"
    bodyFields := [("code", Json.str code), ("language", Json.str (languageId language))]
    timeoutMs := 20000
    retries := 1 }

/-- The request `aiComplete` (api.ts) hands to `fetchJSON`:
`fetchJSON("/ai-complete", { method: "POST", body: JSON.stringify({ code,
cursorOffset }), timeoutMs: 6_000, retries: 0 })`. -/
def aiCompleteRequest (code : String) (cursorOffset : Int) : Request :=
  { method := "POST"
    path := "/ai-complete"
    bodyFields := [("code", Json.str code), ("cursorOffset", Json.num cursorOffset)]
    timeoutMs := 6000
    retries := 0 }

/-- The suggestion extraction at the end of `aiComplete` (api.ts line 126):
`typeof resp.suggestion === "string" ? resp.suggestion : ""`.  The `typeof`
test is `true` exactly when the property is present and a JSON string; for a
missing property (`undefined`), `null`, or any non-string value it is `false`
and the empty string is returned. -/
def extractSuggestion (resp : Json) : String :=
  match jsonGet resp "suggestion" with
  | some (Json.str s) => s
  | _ => ""

/-- `aiComplete` (api.ts): `await fetchJSON(...)` with the options of
`aiCompleteRequest` (in particular `retries: 0`), then the suggestion
extraction.  There is no `try`/`catch`: a `fetchJSON` failure propagates to
the caller, which the `Except.error` branch records. -/
def aiComplete (code : String) (cursorOffset : Int)
    (env : Nat → AttemptOutcome) : Except FetchResult String :=
  match fetchJSON env (aiCompleteRequest code cursorOffset).retries with
  | FetchResult.success data => Except.ok (extractSuggestion data)
  | e => Except.error e

/-- Modelled from the spec: the Sandbox Runner's wall-clock execution timeout
("Wall-clock timeout (e.g., 30 s)", spec §4.3; the README states a 30-second
execution limit).  The backend `main.py` that enforces it is not in the
repository — only its Dockerfile is — so the value is taken from the spec. -/
def sandboxWallClockTimeoutMs : Nat := 30000

/-- JS `String.prototype.trim` whitespace (ECMA-262 `TrimString`): tab, LF,
VT, FF, CR, space, NBSP, the Unicode space separators, LS, PS and the BOM. -/
def jsWhitespace (ch : Char) : Bool :=
  ch.toNat = 9 || ch.toNat = 10 || ch.toNat = 11 || ch.toNat = 12 ||
  ch.toNat = 13 || ch.toNat = 32 || ch.toNat = 160 || ch.toNat = 5760 ||
  (8192 ≤ ch.toNat && ch.toNat ≤ 8202) || ch.toNat = 8232 ||
  ch.toNat = 8233 || ch.toNat = 8239 || ch.toNat = 8287 ||
  ch.toNat = 12288 || ch.toNat = 65279

/-- JS `code.trim()`: drop leading and trailing whitespace. -/
def jsTrim (s : String) : String :=
  String.mk (((s.data.dropWhile jsWhitespace).reverse.dropWhile jsWhitespace).reverse)

/-- The `BACKEND_URL` constant inside `executeCode` (page.tsx): the
`/execute` route of the production host in production, and the bare
development host root otherwise. -/
def executeBackendUrl (production : Bool) : String :=
  if production then "https://online-code-editor-idoc.onrender.com/execute"
  else "https://2jfjkj-8001.csb.app/"

/-- A request issued directly with `fetch` by the page component (no
timeout/retry options). -/
structure PageRequest where
  url : String
  method : String
  bodyFields : List (String × Json)

/-- What `executeCode` (page.tsx) does before any response arrives. -/
inductive ExecuteAction where
  | showError (message : String) : ExecuteAction
  | request (req : PageRequest) : ExecuteAction

/-- `executeCode` (page.tsx): `if (!code.trim())` set the error message and
return without any request; otherwise POST `JSON.stringify({ code })` to
`BACKEND_URL`.  A JS string is falsy exactly when it is empty, so the guard
fires iff `code.trim()` is `""`. -/
def executeCode (production : Bool) (code : String) : ExecuteAction :=
  if jsTrim code = "" then
    ExecuteAction.showError "Please enter some code to execute"
  else
    ExecuteAction.request
      { url := executeBackendUrl production
        method := "POST"
        bodyFields := [("code", Json.str code)] }

/-- JS `String.prototype.toLowerCase`, character by character (the full
Unicode case map agrees with `Char.toLower` on the ASCII mode strings this
client compares). -/
def jsToLowerCase (s : String) : String :=
  String.mk (s.data.map Char.toLower)

/-- `MODE` (ConnectionStatus): `(process.env.NEXT_PUBLIC_API_MODE ||
"queue").toLowerCase()`.  `none` models an unset variable; the `||` fallback
also replaces an empty string, which is falsy in JS. -/
def MODE (envMode : Option String) : String :=
  jsToLowerCase
    (match envMode with
     | some s => if s = "" then "queue" else s
     | none => "queue")

/-- `endpoint` (ConnectionStatus): `MODE === "queue" ? "/submit" :
"/execute"`. -/
def endpoint (envMode : Option String) : String :=
  if MODE envMode = "queue" then "/submit" else "/execute"

/-- The liveness probe request of `ConnectionStatus`:
`fetch(`API_URL/`, { signal, cache: "no-store" })` — method defaults to GET,
URL is the service root. -/
structure ProbeRequest where
  method : String
  url : String

/-- The probe `ConnectionStatus` issues on mount. -/
def livenessProbe (apiUrl : String) : ProbeRequest :=
  { method := "GET", url := apiUrl ++ "/" }

/-- How the probe's `fetch` ends: a resolved response (any status) or a
rejection whose message the component stringifies. -/
inductive ProbeOutcome where
  | response (status : Nat) : ProbeOutcome
  | failure (msg : String) : ProbeOutcome

/-- The `Ping` state of `ConnectionStatus`. -/
structure Ping where
  ok : Bool
  url : String
  error : Option String

/-- The state `ConnectionStatus` stores after the probe settles: on a
response, `{ ok: r.ok, url: API_URL + endpoint }` (no error field); on a
rejection, `{ ok: false, url: API_URL + endpoint, error: msg }`. -/
def connectionPing (apiUrl : String) (envMode : Option String)
    (outcome : ProbeOutcome) : Ping :=
  match outcome with
  | ProbeOutcome.response status =>
      { ok := resOk status, url := apiUrl ++ endpoint envMode, error := none }
  | ProbeOutcome.failure msg =>
      { ok := false, url := apiUrl ++ endpoint envMode, error := some msg }

/-- The Monaco mode the editor pane selects (CodePane.tsx):
`language === "python" ? "python" : "r"`. -/
def monacoLanguage (language : Language) : String :=
  match language with
  | Language.python => "python"
  | _ => "r"

/-- The execution-side routes of the service (spec §6): the synchronous
execute route, the submit route, and the status/result polling routes. -/
def isExecutionEndpoint (path : String) : Bool :=
  path = "/execute" || path = "/submit" ||
  List.isPrefixOf "/status/".data path.data ||
  List.isPrefixOf "/result/".data path.data

/-- Environment in which every fetch attempt aborts (the provider never
answers within the timeout). -/
def envAbortAll : Nat → AttemptOutcome :=
  fun _ => AttemptOutcome.abortError

/-- Environment in which the first attempt resolves with status 200 and an
empty-object body (a response without a suggestion). -/
def envNoSuggestion : Nat → AttemptOutcome :=
  fun _ => AttemptOutcome.response 200 "OK" (Json.obj [])

/-- Environment in which the first attempt resolves with status 200 and a
body carrying a string suggestion. -/
def envWithSuggestion : Nat → AttemptOutcome :=
  fun _ => AttemptOutcome.response 200 "OK" (Json.obj [("suggestion", Json.str "hi")])

/-- Environment in which attempt 0 aborts and every later attempt resolves
with an HTTP 500 carrying an error body. -/
def envAbortThen500 : Nat → AttemptOutcome :=
  fun k =>
    if k = 0 then AttemptOutcome.abortError
    else AttemptOutcome.response 500 "ERR" (Json.obj [("error", Json.str "boom")])

/-! ## Helper lemmas -/

/-- Dropping while a predicate holds of every element empties the list. -/
theorem dropWhile_eq_nil_of_all {p : Char → Bool} :
    ∀ l : List Char, (∀ c ∈ l, p c = true) → l.dropWhile p = [] := by
  intro l h
  induction l with
  | nil => rfl
  | cons c cs ih =>
      rw [List.dropWhile_cons, if_pos (h c (List.mem_cons_self c cs))]
      exact ih fun x hx => h x (List.mem_cons_of_mem c hx)

/-- A string whose characters are all JS whitespace trims to the empty
string (vacuously including the empty string itself). -/
theorem jsTrim_eq_empty (s : String) (h : ∀ c ∈ s.data, jsWhitespace c = true) :
    jsTrim s = "" := by
  unfold jsTrim
  rw [dropWhile_eq_nil_of_all s.data h]
  rfl

/-- If the retry loop ends in `Error("Request timed out")`, the final attempt
it could make — index `attempt + remaining` — observed an abort. -/
theorem fetchJSONLoop_timedOut_from_abort (env : Nat → AttemptOutcome) :
    ∀ remaining attempt : Nat,
      fetchJSONLoop env attempt remaining = FetchResult.timedOutError →
      env (attempt + remaining) = AttemptOutcome.abortError := by
  intro remaining
  induction remaining with
  | zero =>
      intro attempt h
      cases he : env attempt with
      | response status statusText data =>
          have hval : fetchJSONLoop env attempt 0 =
              responseResult status statusText data := by
            simp only [fetchJSONLoop]
            rw [he]
          rw [hval] at h
          unfold responseResult at h
          split at h <;> exact FetchResult.noConfusion h
      | abortError =>
          rw [Nat.add_zero]
          exact he
      | networkError m =>
          have hval : fetchJSONLoop env attempt 0 = FetchResult.thrownError m := by
            simp only [fetchJSONLoop]
            rw [he]
          rw [hval] at h
          exact FetchResult.noConfusion h
  | succ r ih =>
      intro attempt h
      cases he : env attempt with
      | response status statusText data =>
          have hval : fetchJSONLoop env attempt (r + 1) =
              responseResult status statusText data := by
            simp only [fetchJSONLoop]
            rw [he]
          rw [hval] at h
          unfold responseResult at h
          split at h <;> exact FetchResult.noConfusion h
      | abortError =>
          have hval : fetchJSONLoop env attempt (r + 1) =
              fetchJSONLoop env (attempt + 1) r := by
            simp only [fetchJSONLoop]
            rw [he]
          rw [hval] at h
          rw [show attempt + (r + 1) = attempt + 1 + r from by omega]
          exact ih (attempt + 1) h
      | networkError m =>
          have hval : fetchJSONLoop env attempt (r + 1) =
              fetchJSONLoop env (attempt + 1) r := by
            simp only [fetchJSONLoop]
            rw [he]
          rw [hval] at h
          rw [show attempt + (r + 1) = attempt + 1 + r from by omega]
          exact ih (attempt + 1) h

/-! ## Claim theorems -/

/-- Claim C1, counterexample: when every attempt of the completion request
aborts (provider timeout), `aiComplete` does not yield the empty suggestion —
the `Error("Request timed out")` thrown by `fetchJSON` propagates to the
caller, because `aiComplete` has no `try`/`catch`. -/
theorem aiComplete_timeout_cex :
    aiComplete "x" 0 envAbortAll = Except.error FetchResult.timedOutError ∧
    aiComplete "x" 0 envAbortAll ≠ Except.ok "" := by
  constructor
  · rfl
  · intro h
    have h2 : (Except.error FetchResult.timedOutError : Except FetchResult String) =
        Except.ok "" := h
    exact Except.noConfusion h2

/-- Claim C1, amended: a completion response that resolves but carries no
string `suggestion` yields the empty string and no error; but a `fetchJSON`
failure (network error, timeout, HTTP error response) is not caught by
`aiComplete` and propagates to the caller as a thrown error. -/
theorem aiComplete_failure_behavior (code : String) (cursorOffset : Int)
    (env : Nat → AttemptOutcome) (data : Json) (e : FetchResult) :
    (fetchJSON env 0 = FetchResult.success data →
      (∀ s, jsonGet data "suggestion" ≠ some (Json.str s)) →
      aiComplete code cursorOffset env = Except.ok "") ∧
    (fetchJSON env 0 = e → (∀ d, e ≠ FetchResult.success d) →
      aiComplete code cursorOffset env = Except.error e) := by
  have heq : aiComplete code cursorOffset env =
      match fetchJSON env 0 with
      | FetchResult.success d => Except.ok (extractSuggestion d)
      | e' => Except.error e' := rfl
  constructor
  · intro hf hns
    rw [heq, hf]
    have hsug : extractSuggestion data = "" := by
      unfold extractSuggestion
      cases hg : jsonGet data "suggestion" with
      | none => rfl
      | some v =>
          cases v with
          | str s => exact absurd hg (hns s)
          | null => rfl
          | bool b => rfl
          | num n => rfl
          | arr elems => rfl
          | obj fields => rfl
    show Except.ok (extractSuggestion data) = Except.ok ""
    rw [hsug]
  · intro hf hne
    rw [heq, hf]
    cases e with
    | success d => exact absurd rfl (hne d)
    | apiError a b c => rfl
    | timedOutError => rfl
    | thrownError m => rfl

/-- Witness for the amended Claim C1 at concrete inputs: a 200 response with
an empty-object body yields the empty suggestion, and an aborted request
yields a propagated timeout error. -/
theorem aiComplete_failure_behavior_witness :
    aiComplete "x" 0 envNoSuggestion = Except.ok "" ∧
    aiComplete "x" 0 envAbortAll = Except.error FetchResult.timedOutError := by
  constructor
  · exact (aiComplete_failure_behavior "x" 0 envNoSuggestion (Json.obj [])
      FetchResult.timedOutError).1 rfl (by intro s hs; simp [jsonGet] at hs)
  · exact (aiComplete_failure_behavior "x" 0 envAbortAll (Json.obj [])
      FetchResult.timedOutError).2 rfl (by intro d hd; exact FetchResult.noConfusion hd)

/-- Claim C2 (code bug): the synchronous execute request's hard timeout in
`runCode` is 20 000 ms, strictly below the sandbox's own 30 000 ms wall-clock
execution timeout, so a legitimate execution finishing between 20 s and 30 s
is truncated by the request timing out first — contradicting the spec's
"must be ≥ the sandbox's own execution timeout". -/
theorem runCodeRequest_timeout_lt_sandbox (code : String) (language : Language) :
    (runCodeRequest code language).timeoutMs < sandboxWallClockTimeoutMs := by
  show (20000 : Nat) < 30000
  decide

/-- Claim C3: a submission whose code is empty or whitespace-only never
produces a request — `executeCode` shows the validation message
"Please enter some code to execute" and returns. -/
theorem executeCode_rejects_blank_code (production : Bool) (code : String)
    (h : ∀ c ∈ code.data, jsWhitespace c = true) :
    executeCode production code =
      ExecuteAction.showError "Please enter some code to execute" := by
  unfold executeCode
  rw [jsTrim_eq_empty code h]
  rfl

/-- Witness for Claim C3 at a concrete whitespace-only input. -/
theorem executeCode_rejects_blank_code_witness :
    executeCode true " " =
      ExecuteAction.showError "Please enter some code to execute" :=
  executeCode_rejects_blank_code true " " (by decide)

/-- Claim C4, counterexample: the page's `executeCode` posts a body holding
only the `code` field — no `language` — and outside production it targets the
service root, not `/execute`. -/
theorem executeCode_request_cex :
    executeCode true "print(1)" = ExecuteAction.request
      { url := "https://online-code-editor-idoc.onrender.com/execute"
        method := "POST"
        bodyFields := [("code", Json.str "print(1)")] } ∧
    executeCode false "print(1)" = ExecuteAction.request
      { url := "https://2jfjkj-8001.csb.app/"
        method := "POST"
        bodyFields := [("code", Json.str "print(1)")] } ∧
    List.lookup "language" [("code", Json.str "print(1)")] = none :=
  ⟨rfl, rfl, rfl⟩

/-- Claim C4, amended: execution requests issued through `runCode` are POSTs
to `/execute` whose JSON body carries both `code` and `language` (and whose
response is typed `{output, error, success}`); but the page's `executeCode`
sends a body with only the `code` field, to `/execute` only in production and
to the development host's root otherwise. -/
theorem execution_request_shape (code : String) (language : Language)
    (production : Bool) :
    (runCodeRequest code language).method = "POST" ∧
    (runCodeRequest code language).path = "/execute" ∧
    (runCodeRequest code language).bodyFields =
      [("code", Json.str code), ("language", Json.str (languageId language))] ∧
    (jsTrim code = "" ∨
      executeCode production code = ExecuteAction.request
        { url := executeBackendUrl production
          method := "POST"
          bodyFields := [("code", Json.str code)] }) := by
  refine ⟨rfl, rfl, rfl, ?_⟩
  by_cases h : jsTrim code = ""
  · exact Or.inl h
  · refine Or.inr ?_
    unfold executeCode
    rw [if_neg h]

/-- Claim C5: completion requests use a 6 000 ms timeout and zero retries,
while execution requests allow one retry. -/
theorem aiComplete_timeout_and_retry (code : String) (cursorOffset : Int)
    (execCode : String) (language : Language) :
    (aiCompleteRequest code cursorOffset).timeoutMs = 6000 ∧
    (aiCompleteRequest code cursorOffset).retries = 0 ∧
    (runCodeRequest execCode language).retries = 1 :=
  ⟨rfl, rfl, rfl⟩

/-- Claim C6: every completion request is a POST to `/ai-complete` whose body
holds exactly the code text and the cursor offset; the path is none of the
execution routes (`/execute`, `/submit`, `/status/...`, `/result/...`), and a
resolved response is decoded by reading its `suggestion` field. -/
theorem aiComplete_request_shape (code : String) (cursorOffset : Int) :
    (aiCompleteRequest code cursorOffset).method = "POST" ∧
    (aiCompleteRequest code cursorOffset).path = "/ai-complete" ∧
    (aiCompleteRequest code cursorOffset).bodyFields =
      [("code", Json.str code), ("cursorOffset", Json.num cursorOffset)] ∧
    isExecutionEndpoint (aiCompleteRequest code cursorOffset).path = false ∧
    (∀ (env : Nat → AttemptOutcome) (status : Nat) (statusText : String)
        (data : Json) (s : String),
      env 0 = AttemptOutcome.response status statusText data →
      resOk status = true →
      jsonGet data "suggestion" = some (Json.str s) →
      aiComplete code cursorOffset env = Except.ok s) := by
  refine ⟨rfl, rfl, rfl, ?_, ?_⟩
  · show isExecutionEndpoint "/ai-complete" = false
    decide
  intro env status statusText data s h hok hs
  have heq : aiComplete code cursorOffset env =
      match fetchJSONLoop env 0 0 with
      | FetchResult.success d => Except.ok (extractSuggestion d)
      | e' => Except.error e' := rfl
  have hloop : fetchJSONLoop env 0 0 = FetchResult.success data := by
    simp only [fetchJSONLoop]
    rw [h]
    simp [responseResult, hok]
  rw [heq, hloop]
  have hx : extractSuggestion data = s := by
    simp only [extractSuggestion]
    rw [hs]
  show Except.ok (extractSuggestion data) = Except.ok s
  rw [hx]

/-- Witness for Claim C6 at a concrete environment whose response carries a
string suggestion. -/
theorem aiComplete_request_shape_witness :
    aiComplete "x" 0 envWithSuggestion = Except.ok "hi" :=
  (aiComplete_request_shape "x" 0).2.2.2.2 envWithSuggestion 200 "OK"
    (Json.obj [("suggestion", Json.str "hi")]) "hi" rfl rfl rfl

/-- Claim C7: the connection check probes with a GET of the service root;
the stored state is connected exactly for a 2xx status; any fetch failure is
reported as not connected together with its message; and the displayed
endpoint is `/submit` when the configured mode is "queue" (the default,
case-insensitively) and `/execute` otherwise. -/
theorem connectionStatus_probe (apiUrl : String) (envMode : Option String)
    (status : Nat) (msg : String) :
    (livenessProbe apiUrl).method = "GET" ∧
    (livenessProbe apiUrl).url = apiUrl ++ "/" ∧
    ((connectionPing apiUrl envMode (ProbeOutcome.response status)).ok = true ↔
      200 ≤ status ∧ status ≤ 299) ∧
    (connectionPing apiUrl envMode (ProbeOutcome.failure msg)).ok = false ∧
    (connectionPing apiUrl envMode (ProbeOutcome.failure msg)).error = some msg ∧
    (∀ outcome, (connectionPing apiUrl envMode outcome).url =
      apiUrl ++ endpoint envMode) ∧
    endpoint none = "/submit" ∧
    (∀ m : String, jsToLowerCase m = "queue" → endpoint (some m) = "/submit") ∧
    (∀ m : String, m ≠ "" → jsToLowerCase m ≠ "queue" →
      endpoint (some m) = "/execute") := by
  refine ⟨rfl, rfl, ?_, rfl, rfl, ?_, rfl, ?_, ?_⟩
  · simp [connectionPing, resOk]
  · intro outcome
    cases outcome <;> rfl
  · intro m hm
    by_cases hempty : m = ""
    · subst hempty
      rfl
    · show (if jsToLowerCase (if m = "" then "queue" else m) = "queue"
          then "/submit" else "/execute") = "/submit"
      rw [if_neg hempty, if_pos hm]
  · intro m hempty hm
    show (if jsToLowerCase (if m = "" then "queue" else m) = "queue"
        then "/submit" else "/execute") = "/execute"
    rw [if_neg hempty, if_neg hm]

/-- Witness for Claim C7 at concrete inputs: a 200 response reports
connected; the mode "QUEUE" displays `/submit` case-insensitively; the mode
"direct" displays `/execute`. -/
theorem connectionStatus_probe_witness :
    (connectionPing "http://localhost:8001" none (ProbeOutcome.response 200)).ok = true ∧
    endpoint (some "QUEUE") = "/submit" ∧
    endpoint (some "direct") = "/execute" := by
  refine ⟨?_, ?_, ?_⟩
  · exact (connectionStatus_probe "http://localhost:8001" none 200 "m").2.2.1.mpr
      (by decide)
  · exact (connectionStatus_probe "" (some "QUEUE") 0 "").2.2.2.2.2.2.2.1 "QUEUE"
      (by decide)
  · exact (connectionStatus_probe "" (some "direct") 0 "").2.2.2.2.2.2.2.2 "direct"
      (by decide) (by decide)

/-- Claim C8: in `fetchJSON`, a resolved non-ok response throws a typed
`ApiError` carrying the status and parsed body at once — regardless of how
many retries remain — an ok response returns the body, an abort or network
error retries while attempts remain, the final attempt's abort becomes
`Error("Request timed out")` and its network error is rethrown; and the
timed-out error arises only when the final attempt aborted. -/
theorem fetchJSON_error_policy (env : Nat → AttemptOutcome)
    (attempt remaining status : Nat) (statusText msg : String) (data : Json) :
    (env attempt = AttemptOutcome.response status statusText data →
      resOk status = false →
      fetchJSONLoop env attempt remaining =
        FetchResult.apiError status (apiErrorMessage status data statusText) data) ∧
    (env attempt = AttemptOutcome.response status statusText data →
      resOk status = true →
      fetchJSONLoop env attempt remaining = FetchResult.success data) ∧
    (env attempt = AttemptOutcome.abortError →
      fetchJSONLoop env attempt (remaining + 1) =
        fetchJSONLoop env (attempt + 1) remaining) ∧
    (env attempt = AttemptOutcome.networkError msg →
      fetchJSONLoop env attempt (remaining + 1) =
        fetchJSONLoop env (attempt + 1) remaining) ∧
    (env attempt = AttemptOutcome.abortError →
      fetchJSONLoop env attempt 0 = FetchResult.timedOutError) ∧
    (env attempt = AttemptOutcome.networkError msg →
      fetchJSONLoop env attempt 0 = FetchResult.thrownError msg) ∧
    (fetchJSONLoop env attempt remaining = FetchResult.timedOutError →
      env (attempt + remaining) = AttemptOutcome.abortError) := by
  refine ⟨?_, ?_, ?_, ?_, ?_, ?_,
    fetchJSONLoop_timedOut_from_abort env remaining attempt⟩
  · intro he hok
    cases remaining with
    | zero =>
        simp only [fetchJSONLoop]
        rw [he]
        simp [responseResult, hok]
    | succ r =>
        simp only [fetchJSONLoop]
        rw [he]
        simp [responseResult, hok]
  · intro he hok
    cases remaining with
    | zero =>
        simp only [fetchJSONLoop]
        rw [he]
        simp [responseResult, hok]
    | succ r =>
        simp only [fetchJSONLoop]
        rw [he]
        simp [responseResult, hok]
  · intro he
    simp only [fetchJSONLoop]
    rw [he]
  · intro he
    simp only [fetchJSONLoop]
    rw [he]
  · intro he
    simp only [fetchJSONLoop]
    rw [he]
  · intro he
    simp only [fetchJSONLoop]
    rw [he]

/-- Witness for Claim C8 at a concrete environment: attempt 0 aborts and is
retried; attempt 1 resolves with an HTTP 500 whose body message "boom" is
thrown as `ApiError` immediately. -/
theorem fetchJSON_error_policy_witness :
    fetchJSON envAbortThen500 1 =
      FetchResult.apiError 500 "API 500: boom"
        (Json.obj [("error", Json.str "boom")]) := by
  have hretry : fetchJSON envAbortThen500 1 = fetchJSONLoop envAbortThen500 1 0 :=
    (fetchJSON_error_policy envAbortThen500 0 0 500 "ERR" "m"
      (Json.obj [("error", Json.str "boom")])).2.2.1 rfl
  have herr : fetchJSONLoop envAbortThen500 1 0 =
      FetchResult.apiError 500
        (apiErrorMessage 500 (Json.obj [("error", Json.str "boom")]) "ERR")
        (Json.obj [("error", Json.str "boom")]) :=
    (fetchJSON_error_policy envAbortThen500 1 0 500 "ERR" "m"
      (Json.obj [("error", Json.str "boom")])).1 rfl rfl
  rw [hretry, herr]
  rfl

/-- Claim C9: the suggestion extraction of `aiComplete` returns the
`suggestion` field when it is a string, and the empty string when the field
is missing, `null`, or any non-string value — so its result is always a
string. -/
theorem extractSuggestion_cases (fields : List (String × Json)) (s : String)
    (n : Int) (b : Bool) (elems : List Json) (inner : List (String × Json)) :
    (List.lookup "suggestion" fields = some (Json.str s) →
      extractSuggestion (Json.obj fields) = s) ∧
    (List.lookup "suggestion" fields = none →
      extractSuggestion (Json.obj fields) = "") ∧
    (List.lookup "suggestion" fields = some Json.null →
      extractSuggestion (Json.obj fields) = "") ∧
    (List.lookup "suggestion" fields = some (Json.num n) →
      extractSuggestion (Json.obj fields) = "") ∧
    (List.lookup "suggestion" fields = some (Json.bool b) →
      extractSuggestion (Json.obj fields) = "") ∧
    (List.lookup "suggestion" fields = some (Json.arr elems) →
      extractSuggestion (Json.obj fields) = "") ∧
    (List.lookup "suggestion" fields = some (Json.obj inner) →
      extractSuggestion (Json.obj fields) = "") := by
  simp only [extractSuggestion, jsonGet]
  refine ⟨?_, ?_, ?_, ?_, ?_, ?_, ?_⟩ <;> intro h <;> rw [h]

/-- Witness for Claim C9 at concrete response objects: a string field is
returned, a numeric field yields the empty string. -/
theorem extractSuggestion_cases_witness :
    extractSuggestion (Json.obj [("suggestion", Json.str "hi")]) = "hi" ∧
    extractSuggestion (Json.obj [("suggestion", Json.num 3)]) = "" :=
  ⟨(extractSuggestion_cases [("suggestion", Json.str "hi")] "hi" 0 false [] []).1 rfl,
   (extractSuggestion_cases [("suggestion", Json.num 3)] "" 3 false [] []).2.2.2.1 rfl⟩

/-- Claim C10: the editor pane maps `python` to Monaco mode "python" and every
other member of the `Language` union — `r`, `javascript`, `bash`, `cpp`, `c`,
`csharp`, `java`, `go`, `julia` — to mode "r". -/
theorem monacoLanguage_python_else_r :
    monacoLanguage Language.python = "python" ∧
    monacoLanguage Language.r = "r" ∧
    monacoLanguage Language.javascript = "r" ∧
    monacoLanguage Language.bash = "r" ∧
    monacoLanguage Language.cpp = "r" ∧
    monacoLanguage Language.c = "r" ∧
    monacoLanguage Language.csharp = "r" ∧
    monacoLanguage Language.java = "r" ∧
    monacoLanguage Language.go = "r" ∧
    monacoLanguage Language.julia = "r" :=
  ⟨rfl, rfl, rfl, rfl, rfl, rfl, rfl, rfl, rfl, rfl⟩

end OnlineCodeEditor
